import Mathlib

/-!
Shallow embedding of `src/messaging/mpid_header.rs` from the
`safe_network_common` repository, together with proofs of the specified
properties of the `MpidHeader` type.

Modelling conventions:
* Byte strings are `List Nat`; the fixed widths that Rust enforces at the
  type level (`XorName` is 64 bytes, `guid` is `GUID_SIZE` bytes, a
  `Signature` is 64 bytes) become explicit hypotheses where they matter.
* The thread-local random source is derandomised: the sampled `guid` bytes
  are an explicit argument of `new`.
* The process-wide sodiumoxide initialisation result (a sticky one-shot
  boolean) is an explicit `init_ok : Bool` argument of `new`; the source
  `assert!`s on it, so a `false` value aborts the process, which the model
  renders as the `none` outcome of `Option`.
* The external detached-signature primitive is a parameter (`SignScheme`),
  and the external SHA-512 primitive is a function parameter `sha`.
* The external serialisation codec is modelled concretely from the spec's
  normative wire format; the fallible codec used by the source is also kept
  abstract as a `ser` parameter in the `*With` variants, so that claims
  about encoder-failure paths can be stated.
-/

namespace Mpid

/-- Byte strings are modelled as lists of naturals. -/
abbrev Bytes := List Nat

/-- Maximum allowed length for a header's metadata (128 bytes), from the
source constant `MAX_HEADER_METADATA_SIZE`. -/
def MAX_HEADER_METADATA_SIZE : Nat := 128

/-- Modelled from the spec: `GUID_SIZE` is imported by the source from the
enclosing `messaging` module, which is not among the sources; the spec fixes
it as a compile-time constant, typically 16 bytes. -/
def GUID_SIZE : Nat := 16

/-- A fixed-width 512-bit (64-byte) opaque identifier, the XOR name of the
surrounding substrate (external `xor_name::XorName`). -/
structure XorName where
  bytes : Bytes
deriving DecidableEq

/-- A detached signature (external `sodiumoxide` `Signature`, 64 bytes). -/
structure Signature where
  bytes : Bytes
deriving DecidableEq

/-- Secret keys of the external signing primitive, kept as raw bytes. -/
abbrev SecretKey := Bytes

/-- Public keys of the external signing primitive, kept as raw bytes. -/
abbrev PublicKey := Bytes

/-- Modelled from the spec: the error type of the enclosing `messaging`
module is not among the sources; the spec names the three kinds surfaced by
this component. -/
inductive Error where
  | MetadataTooLarge
  | SerializationFailed
  | CryptoInitFailed
deriving DecidableEq

/-- The signed payload of a header: sender name, unique identifier and
metadata bytes (source struct `Detail`). -/
structure Detail where
  sender : XorName
  guid : Bytes
  metadata : Bytes
deriving DecidableEq

/-- Minimal information about a given message which can be used as a
notification to the receiver (source struct `MpidHeader`). -/
structure MpidHeader where
  detail : Detail
  signature : Signature
deriving DecidableEq

/-- The external detached-signature primitive (`sodiumoxide::crypto::sign`),
kept abstract: a signing function, a verification function, and the map
from secret keys to their public keys. -/
structure SignScheme where
  sign_detached : Bytes → SecretKey → Signature
  verify_detached : Signature → Bytes → PublicKey → Bool
  pk : SecretKey → PublicKey

/-- Little-endian encoding of a natural into `k` bytes. -/
def natToLE : Nat → Nat → Bytes
  | 0, _ => []
  | k + 1, n => n % 256 :: natToLE k (n / 256)

/-- Little-endian decoding of a byte string into a natural. -/
def leToNat : Bytes → Nat
  | [] => 0
  | b :: bs => b + 256 * leToNat bs

/-- Modelled from the spec: the canonical encoder is supplied by the external
`maidsafe_utilities::serialisation` crate; the spec's normative wire format
emits, in declaration order, the 64 raw sender bytes, the `GUID_SIZE` raw
guid bytes, then the metadata behind an explicit length marker (here 8
little-endian bytes). -/
def serialise_detail (d : Detail) : Bytes :=
  d.sender.bytes ++ d.guid ++ natToLE 8 d.metadata.length ++ d.metadata

/-- Modelled from the spec: the encoded header is the encoded detail followed
by the 64 raw signature bytes. -/
def serialise_header (h : MpidHeader) : Bytes :=
  serialise_detail h.detail ++ h.signature.bytes

/-- Decoder for the spec's normative wire format of a header: 64 sender
bytes, `GUID_SIZE` guid bytes, an 8-byte length marker, the metadata bytes,
and a 64-byte signature, consuming the input exactly. -/
def decodeHeader (bs : Bytes) : Option MpidHeader :=
  let sender := bs.take 64
  let r1 := bs.drop 64
  let guid := r1.take GUID_SIZE
  let r2 := r1.drop GUID_SIZE
  let lenBytes := r2.take 8
  let r3 := r2.drop 8
  let mlen := leToNat lenBytes
  let metadata := r3.take mlen
  let sig := r3.drop mlen
  if sender.length = 64 ∧ guid.length = GUID_SIZE ∧ lenBytes.length = 8 ∧
      metadata.length = mlen ∧ sig.length = 64 then
    some ⟨⟨⟨sender⟩, guid, metadata⟩, ⟨sig⟩⟩
  else
    none

/-- Constructor `MpidHeader::new`, generic over the fallible encoder `ser`.
The source asserts that sodiumoxide initialisation succeeded (a `false`
cached result aborts the process: outcome `none`), rejects metadata longer
than `MAX_HEADER_METADATA_SIZE`, fills `guid` from the thread-local random
source (here the explicit `guid` argument), serialises the detail and signs
the encoding with `secret_key`. -/
def MpidHeader.newWith (S : SignScheme) (ser : Detail → Except Unit Bytes)
    (init_ok : Bool) (sender : XorName) (metadata : Bytes)
    (secret_key : SecretKey) (guid : Bytes) : Option (Except Error MpidHeader) :=
  if init_ok then
    some
      (if metadata.length > MAX_HEADER_METADATA_SIZE then
        Except.error Error.MetadataTooLarge
      else
        let detail : Detail := { sender := sender, guid := guid, metadata := metadata }
        match ser detail with
        | Except.error _ => Except.error Error.SerializationFailed
        | Except.ok encoded =>
            Except.ok { detail := detail, signature := S.sign_detached encoded secret_key })
  else
    none

/-- Constructor `MpidHeader::new` with the concrete canonical encoder. -/
def MpidHeader.new (S : SignScheme) (init_ok : Bool) (sender : XorName)
    (metadata : Bytes) (secret_key : SecretKey) (guid : Bytes) :
    Option (Except Error MpidHeader) :=
  MpidHeader.newWith S (fun d => Except.ok (serialise_detail d)) init_ok sender
    metadata secret_key guid

/-- Accessor `MpidHeader::sender`. -/
def MpidHeader.sender (h : MpidHeader) : XorName :=
  h.detail.sender

/-- Accessor `MpidHeader::guid`. -/
def MpidHeader.guid (h : MpidHeader) : Bytes :=
  h.detail.guid

/-- Accessor `MpidHeader::metadata`. -/
def MpidHeader.metadata (h : MpidHeader) : Bytes :=
  h.detail.metadata

/-- Operation `MpidHeader::name`, generic over the fallible encoder: the
SHA-512 hash of the serialised header, as an XOR name, or
`SerializationFailed` when encoding fails. -/
def MpidHeader.nameWith (sha : Bytes → Bytes) (ser : MpidHeader → Except Unit Bytes)
    (h : MpidHeader) : Except Error XorName :=
  match ser h with
  | Except.ok encoded => Except.ok { bytes := sha encoded }
  | Except.error _ => Except.error Error.SerializationFailed

/-- Operation `MpidHeader::name` with the concrete canonical encoder. -/
def MpidHeader.name (sha : Bytes → Bytes) (h : MpidHeader) : Except Error XorName :=
  MpidHeader.nameWith sha (fun hd => Except.ok (serialise_header hd)) h

/-- Operation `MpidHeader::verify`, generic over the fallible encoder: the
detail is serialised and the detached signature checked against the given
public key; an encoding failure yields `false`. -/
def MpidHeader.verifyWith (S : SignScheme) (ser : Detail → Except Unit Bytes)
    (h : MpidHeader) (public_key : PublicKey) : Bool :=
  match ser h.detail with
  | Except.ok encoded => S.verify_detached h.signature encoded public_key
  | Except.error _ => false

/-- Operation `MpidHeader::verify` with the concrete canonical encoder. -/
def MpidHeader.verify (S : SignScheme) (h : MpidHeader) (public_key : PublicKey) : Bool :=
  MpidHeader.verifyWith S (fun d => Except.ok (serialise_detail d)) h public_key

/-- Field-wise boolean equality on `Detail`, as derived by `PartialEq`. -/
def detailEq (a b : Detail) : Bool :=
  decide (a.sender = b.sender) && decide (a.guid = b.guid) &&
    decide (a.metadata = b.metadata)

/-- Field-wise boolean equality on `MpidHeader`, as derived by `PartialEq`:
the details and the signatures must both agree. -/
def mpidHeaderEq (a b : MpidHeader) : Bool :=
  detailEq a.detail b.detail && decide (a.signature = b.signature)

/-- A concrete instance of the signing primitive, used to exercise the
theorems: signing appends the secret key to the message, verification
recomputes that tag, and a secret key is its own public key. It is complete
and rejects every wrong key. -/
def toyScheme : SignScheme where
  sign_detached m sk := ⟨m ++ sk⟩
  verify_detached sig m p := decide (sig.bytes = m ++ p)
  pk sk := sk

/-- A concrete 64-byte sender name for exercising the theorems. -/
def senderZero : XorName :=
  ⟨List.replicate 64 0⟩

/-- A concrete `GUID_SIZE`-byte guid for exercising the theorems. -/
def guidZero : Bytes :=
  List.replicate GUID_SIZE 0

/-- A concrete secret key for exercising the theorems. -/
def skZero : SecretKey :=
  [7]

/-- A concrete 64-byte signature for exercising the theorems. -/
def sigZero : Signature :=
  ⟨List.replicate 64 1⟩

/-- A concrete header for exercising the theorems. -/
def hdrZero : MpidHeader :=
  { detail := { sender := senderZero, guid := guidZero, metadata := [] }
    signature := sigZero }

/-- The concrete header produced by `new` on the fixture inputs. -/
def hdrNew : MpidHeader :=
  { detail := { sender := senderZero, guid := guidZero, metadata := [] }
    signature :=
      toyScheme.sign_detached
        (serialise_detail { sender := senderZero, guid := guidZero, metadata := [] }) skZero }

/-- Length of the little-endian encoding. -/
theorem natToLE_length (k n : Nat) : (natToLE k n).length = k := by
  induction k generalizing n with
  | zero => rfl
  | succ k ih => simp [natToLE, ih]

/-- Little-endian round-trip for values below the width bound. -/
theorem leToNat_natToLE (k n : Nat) (h : n < 256 ^ k) :
    leToNat (natToLE k n) = n := by
  induction k generalizing n with
  | zero =>
    simp [natToLE, leToNat]
    omega
  | succ k ih =>
    have hdiv : n / 256 < 256 ^ k := by
      rw [Nat.div_lt_iff_lt_mul (by omega)]
      calc n < 256 ^ (k + 1) := h
        _ = 256 ^ k * 256 := by ring
    simp [natToLE, leToNat, ih _ hdiv]
    omega

/-- The concrete scheme accepts every honestly produced signature under the
matching public key. -/
theorem toy_complete (m : Bytes) (sk : SecretKey) :
    toyScheme.verify_detached (toyScheme.sign_detached m sk) m (toyScheme.pk sk) = true := by
  simp [toyScheme]

/-- The concrete scheme rejects every honestly produced signature under a
wrong public key. -/
theorem toy_sound (m : Bytes) (sk : SecretKey) (p : PublicKey) (hp : p ≠ toyScheme.pk sk) :
    toyScheme.verify_detached (toyScheme.sign_detached m sk) m p = false := by
  simp only [toyScheme, decide_eq_false_iff_not]
  intro heq
  exact hp (List.append_cancel_left heq).symm

/-- Inversion of a successful construction: the header holds exactly the
given fields with the signature over the serialised detail, and the metadata
was within bounds. -/
theorem new_ok_inv {S : SignScheme} {sender : XorName} {metadata : Bytes}
    {secret_key : SecretKey} {guid : Bytes} {h : MpidHeader}
    (hnew : MpidHeader.new S true sender metadata secret_key guid = some (Except.ok h)) :
    h = { detail := { sender := sender, guid := guid, metadata := metadata }
          signature :=
            S.sign_detached
              (serialise_detail { sender := sender, guid := guid, metadata := metadata })
              secret_key } ∧
      metadata.length ≤ MAX_HEADER_METADATA_SIZE := by
  by_cases hm : metadata.length > MAX_HEADER_METADATA_SIZE
  · simp [MpidHeader.new, MpidHeader.newWith, hm] at hnew
  · simp [MpidHeader.new, MpidHeader.newWith, hm] at hnew
    exact ⟨hnew.symm, Nat.not_lt.mp hm⟩

/-- C1: for every sender, secret key and metadata of at most 128 bytes,
`new` (with initialisation succeeded and a `GUID_SIZE`-byte random sample)
succeeds, and the returned header satisfies `sender() == sender`,
`metadata() == metadata` and `len(guid()) == GUID_SIZE`. -/
theorem new_header_fields (S : SignScheme) (sender : XorName) (metadata : Bytes)
    (secret_key : SecretKey) (guid : Bytes)
    (hm : metadata.length ≤ MAX_HEADER_METADATA_SIZE) (hg : guid.length = GUID_SIZE) :
    ∃ h : MpidHeader,
      MpidHeader.new S true sender metadata secret_key guid = some (Except.ok h) ∧
        h.sender = sender ∧ h.metadata = metadata ∧ h.guid.length = GUID_SIZE := by
  have hnot : ¬ metadata.length > MAX_HEADER_METADATA_SIZE := Nat.not_lt.mpr hm
  refine ⟨{ detail := { sender := sender, guid := guid, metadata := metadata }
            signature :=
              S.sign_detached
                (serialise_detail { sender := sender, guid := guid, metadata := metadata })
                secret_key }, ?_, rfl, rfl, hg⟩
  simp [MpidHeader.new, MpidHeader.newWith, hnot]

/-- C1 witness: the construction property evaluated at concrete fixtures. -/
theorem new_header_fields_witness :
    ∃ h : MpidHeader,
      MpidHeader.new toyScheme true senderZero [] skZero guidZero = some (Except.ok h) ∧
        h.sender = senderZero ∧ h.metadata = ([] : Bytes) ∧ h.guid.length = GUID_SIZE :=
  new_header_fields toyScheme senderZero [] skZero guidZero (by decide) (by decide)

/-- C2: a header produced by `new` with secret key `sk` carries the detached
signature of the serialised detail, and `verify` against `pk(sk)` returns
`true` whenever the signing primitive is complete: verification checks the
signature over the same canonical encoding of the detail that construction
signed. -/
theorem verify_of_new (S : SignScheme)
    (hS : ∀ m sk, S.verify_detached (S.sign_detached m sk) m (S.pk sk) = true)
    (sender : XorName) (metadata : Bytes) (secret_key : SecretKey) (guid : Bytes)
    (h : MpidHeader)
    (hnew : MpidHeader.new S true sender metadata secret_key guid = some (Except.ok h)) :
    h.signature = S.sign_detached (serialise_detail h.detail) secret_key ∧
      MpidHeader.verify S h (S.pk secret_key) = true := by
  obtain ⟨hh, -⟩ := new_ok_inv hnew
  subst hh
  exact ⟨rfl, hS _ _⟩

/-- C2 witness: construct-then-verify evaluated at concrete fixtures. -/
theorem verify_of_new_witness :
    hdrNew.signature = toyScheme.sign_detached (serialise_detail hdrNew.detail) skZero ∧
      MpidHeader.verify toyScheme hdrNew (toyScheme.pk skZero) = true :=
  verify_of_new toyScheme toy_complete senderZero [] skZero guidZero hdrNew rfl

/-- C3: with initialisation succeeded, `new` fails with `MetadataTooLarge`
exactly when the metadata exceeds 128 bytes (`MAX_HEADER_METADATA_SIZE`),
and metadata of exactly 128 bytes is accepted. -/
theorem new_metadata_bound (S : SignScheme) (sender : XorName) (metadata : Bytes)
    (secret_key : SecretKey) (guid : Bytes) :
    (MpidHeader.new S true sender metadata secret_key guid =
        some (Except.error Error.MetadataTooLarge) ↔
      metadata.length > MAX_HEADER_METADATA_SIZE) ∧
    (metadata.length = MAX_HEADER_METADATA_SIZE →
      ∃ h, MpidHeader.new S true sender metadata secret_key guid = some (Except.ok h)) := by
  constructor
  · constructor
    · intro hE
      by_contra hm
      simp [MpidHeader.new, MpidHeader.newWith, hm] at hE
    · intro hm
      simp [MpidHeader.new, MpidHeader.newWith, hm]
  · intro hm
    have hnot : ¬ metadata.length > MAX_HEADER_METADATA_SIZE := by omega
    refine ⟨{ detail := { sender := sender, guid := guid, metadata := metadata }
              signature :=
                S.sign_detached
                  (serialise_detail { sender := sender, guid := guid, metadata := metadata })
                  secret_key }, ?_⟩
    simp [MpidHeader.new, MpidHeader.newWith, hnot]

/-- C3 witness: 129 bytes of metadata are rejected with `MetadataTooLarge`. -/
theorem new_metadata_bound_witness :
    MpidHeader.new toyScheme true senderZero (List.replicate 129 0) skZero guidZero =
      some (Except.error Error.MetadataTooLarge) :=
  (new_metadata_bound toyScheme senderZero (List.replicate 129 0) skZero guidZero).1.mpr
    (by simp [MAX_HEADER_METADATA_SIZE])

/-- C4: `name` returns the SHA-512 hash of the canonical encoding of the
whole header (serialised detail followed by the signature bytes) as an XOR
name, fails with `SerializationFailed` exactly when the encoder fails, and
is deterministic on equal values. -/
theorem name_spec (sha : Bytes → Bytes) (h : MpidHeader) :
    MpidHeader.name sha h =
        Except.ok ⟨sha (serialise_detail h.detail ++ h.signature.bytes)⟩ ∧
      (∀ ser : MpidHeader → Except Unit Bytes,
        (MpidHeader.nameWith sha ser h = Except.error Error.SerializationFailed ↔
          ∃ e, ser h = Except.error e)) ∧
      MpidHeader.name sha h = MpidHeader.name sha h := by
  refine ⟨rfl, ?_, rfl⟩
  intro ser
  cases hser : ser h <;> simp [MpidHeader.nameWith, hser]

/-- C5: `verify` is a total boolean function (its codomain is `Bool`), and
whenever encoding the detail fails it returns `false` instead of
propagating the error. -/
theorem verify_never_raises (S : SignScheme) (ser : Detail → Except Unit Bytes)
    (h : MpidHeader) (public_key : PublicKey)
    (hfail : ∃ er, ser h.detail = Except.error er) :
    MpidHeader.verifyWith S ser h public_key = false := by
  obtain ⟨er, hser⟩ := hfail
  simp [MpidHeader.verifyWith, hser]

/-- C5 witness: a failing encoder makes verification return `false` at a
concrete header. -/
theorem verify_never_raises_witness :
    MpidHeader.verifyWith toyScheme (fun _ => Except.error ()) hdrZero [] = false :=
  verify_never_raises toyScheme (fun _ => Except.error ()) hdrZero [] ⟨(), rfl⟩

/-- C6 counterexample: with the cached initialisation result `false`, `new`
does not return an error of kind `CryptoInitFailed` at a concrete input (the
source `assert!`s on the result, aborting the process instead). -/
theorem new_init_failed_no_error :
    ¬ MpidHeader.new toyScheme false senderZero [] skZero guidZero =
        some (Except.error Error.CryptoInitFailed) := by
  simp [MpidHeader.new, MpidHeader.newWith]

/-- C6 amended: if the process-wide one-time initialisation has failed,
every subsequent construction observes the cached sticky `false` result and
aborts the process through the assertion (modelled as the `none` outcome),
returning no header and no error value. -/
theorem new_init_failed_aborts (S : SignScheme) (sender : XorName) (metadata : Bytes)
    (secret_key : SecretKey) (guid : Bytes) :
    MpidHeader.new S false sender metadata secret_key guid = none :=
  rfl

/-- C7: a header constructed by `new` with secret key `sk` fails
verification under any public key different from `pk(sk)`, whenever the
signing primitive rejects honest signatures under wrong keys. -/
theorem verify_wrong_key (S : SignScheme)
    (hS : ∀ m sk p, p ≠ S.pk sk →
      S.verify_detached (S.sign_detached m sk) m p = false)
    (sender : XorName) (metadata : Bytes) (secret_key : SecretKey) (guid : Bytes)
    (h : MpidHeader) (p : PublicKey)
    (hnew : MpidHeader.new S true sender metadata secret_key guid = some (Except.ok h))
    (hp : p ≠ S.pk secret_key) :
    MpidHeader.verify S h p = false := by
  obtain ⟨hh, -⟩ := new_ok_inv hnew
  subst hh
  exact hS _ _ _ hp

/-- C7 witness: wrong-key rejection evaluated at concrete fixtures. -/
theorem verify_wrong_key_witness :
    MpidHeader.verify toyScheme hdrNew [9] = false :=
  verify_wrong_key toyScheme toy_sound senderZero [] skZero guidZero hdrNew [9] rfl
    (by decide)

/-- C8: decoding the canonical encoding of a header returns the header
itself, for every header whose fields have the widths the Rust types fix
(64-byte sender, `GUID_SIZE`-byte guid, 64-byte signature) and whose
metadata is within the constructed bound. -/
theorem decode_serialise_roundtrip (h : MpidHeader)
    (hs : h.detail.sender.bytes.length = 64) (hg : h.detail.guid.length = GUID_SIZE)
    (hm : h.detail.metadata.length ≤ MAX_HEADER_METADATA_SIZE)
    (hsig : h.signature.bytes.length = 64) :
    decodeHeader (serialise_header h) = some h := by
  obtain ⟨⟨⟨s⟩, g, m⟩, ⟨sig⟩⟩ := h
  simp only at hs hg hm hsig
  have hmlt : m.length < 256 ^ 8 := lt_of_le_of_lt hm (by norm_num [MAX_HEADER_METADATA_SIZE])
  have hL : (natToLE 8 m.length).length = 8 := natToLE_length 8 _
  have hform : serialise_header ⟨⟨⟨s⟩, g, m⟩, ⟨sig⟩⟩ =
      s ++ (g ++ (natToLE 8 m.length ++ (m ++ sig))) := by
    simp [serialise_header, serialise_detail]
  rw [hform]
  simp only [decodeHeader]
  rw [List.take_left' hs, List.drop_left' hs, List.take_left' hg, List.drop_left' hg,
    List.take_left' hL, List.drop_left' hL, leToNat_natToLE 8 _ hmlt,
    List.take_left' rfl, List.drop_left' rfl]
  simp [hs, hg, hL, hsig]

/-- C8 witness: round-trip evaluated at a concrete header. -/
theorem decode_serialise_roundtrip_witness :
    decodeHeader (serialise_header hdrZero) = some hdrZero :=
  decode_serialise_roundtrip hdrZero (by decide) (by decide) (by decide) (by decide)

/-- C9: the derived boolean equality on headers is field-wise over all four
components, and two headers with identical detail but different signatures
compare unequal. -/
theorem header_eq_fieldwise (h₁ h₂ : MpidHeader) :
    (mpidHeaderEq h₁ h₂ = true ↔
      (h₁.sender = h₂.sender ∧ h₁.guid = h₂.guid ∧
        h₁.metadata = h₂.metadata ∧ h₁.signature = h₂.signature)) ∧
    (h₁.detail = h₂.detail → h₁.signature ≠ h₂.signature →
      mpidHeaderEq h₁ h₂ = false) := by
  constructor
  · obtain ⟨⟨ss, sg, sm⟩, ssig⟩ := h₁
    obtain ⟨⟨ts, tg, tm⟩, tsig⟩ := h₂
    simp [mpidHeaderEq, detailEq, MpidHeader.sender, MpidHeader.guid,
      MpidHeader.metadata, and_assoc]
  · intro hd hsig
    simp [mpidHeaderEq, hsig]

/-- C9 witness: same detail with a different signature compares unequal at a
concrete pair of headers. -/
theorem header_eq_fieldwise_witness :
    mpidHeaderEq hdrZero { hdrZero with signature := ⟨[]⟩ } = false :=
  (header_eq_fieldwise hdrZero { hdrZero with signature := ⟨[]⟩ }).2 rfl (by decide)

/-- C10: with initialisation succeeded and oversized metadata, `new` fails
with `MetadataTooLarge` for every encoder and every sampled guid, and its
result does not depend on either: the size check precedes guid sampling and
serialisation. -/
theorem metadata_check_first (S : SignScheme) (sender : XorName) (metadata : Bytes)
    (secret_key : SecretKey)
    (hm : metadata.length > MAX_HEADER_METADATA_SIZE) :
    ∀ (ser ser' : Detail → Except Unit Bytes) (guid guid' : Bytes),
      MpidHeader.newWith S ser true sender metadata secret_key guid =
          some (Except.error Error.MetadataTooLarge) ∧
        MpidHeader.newWith S ser true sender metadata secret_key guid =
          MpidHeader.newWith S ser' true sender metadata secret_key guid' := by
  intro ser ser' guid guid'
  constructor <;> simp [MpidHeader.newWith, hm]

/-- C10 witness: encoder and guid independence of the oversized-metadata
failure, at concrete fixtures including an always-failing encoder. -/
theorem metadata_check_first_witness :
    MpidHeader.newWith toyScheme (fun d => Except.ok (serialise_detail d)) true senderZero
        (List.replicate 129 0) skZero guidZero =
        some (Except.error Error.MetadataTooLarge) ∧
      MpidHeader.newWith toyScheme (fun d => Except.ok (serialise_detail d)) true senderZero
          (List.replicate 129 0) skZero guidZero =
        MpidHeader.newWith toyScheme (fun _ => Except.error ()) true senderZero
          (List.replicate 129 0) skZero [] :=
  metadata_check_first toyScheme senderZero (List.replicate 129 0) skZero
    (by simp [MAX_HEADER_METADATA_SIZE]) (fun d => Except.ok (serialise_detail d))
    (fun _ => Except.error ()) guidZero []

end Mpid
